import Mathlib

/-!
Verification of the torrent search / auto-download-rule pipeline of
QbitRemoteDownloader against its natural-language specification.

Python strings are modelled shallowly as lists of Unicode code points
(`List Nat`); all inputs the program handles in the verified paths are
ASCII, and the character-class functions below embed Python's `re`
character classes and `str` methods on that range.

Source files embedded here:
- `src/services/prowlarr_client.py` (title extraction, comparison keys,
  duplicate detection, result filtering and pagination)
- `src/services/qbittorrent_client.py` (auto-download rule synthesis and
  the rule-existence checks)
-/

namespace QbitRD

/-- Code-point list of a Lean string literal; used to write the Python
string values of the program readably. -/
def pyStr (s : String) : List Nat := s.data.map Char.toNat

/-- Python regex `\s` / `str.isspace` on the ASCII range. -/
def isSpaceCh (n : Nat) : Bool := n == 32 || n == 9 || n == 10 || n == 13 || n == 11 || n == 12

/-- ASCII digit, Python regex `\d`. -/
def isDigitCh (n : Nat) : Bool := 48 ≤ n && n ≤ 57

/-- ASCII uppercase letter. -/
def isUpperCh (n : Nat) : Bool := 65 ≤ n && n ≤ 90

/-- ASCII lowercase letter. -/
def isLowerCh (n : Nat) : Bool := 97 ≤ n && n ≤ 122

/-- ASCII letter. -/
def isAlphaCh (n : Nat) : Bool := isUpperCh n || isLowerCh n

/-- ASCII alphanumeric, the class `[A-Za-z0-9]` (also `[a-z0-9]` under
`re.IGNORECASE`). -/
def isAlnumCh (n : Nat) : Bool := isAlphaCh n || isDigitCh n

/-- Python regex `\w` on the ASCII range: alphanumeric or underscore. -/
def isWordCh (n : Nat) : Bool := isAlnumCh n || n == 95

/-- Python `str.lower` on the ASCII range. -/
def toLowerCh (n : Nat) : Nat := if isUpperCh n then n + 32 else n

/-- Lowercasing of a whole string via `str.lower`. -/
def lowerStr (s : List Nat) : List Nat := s.map toLowerCh

/-- Case-sensitive prefix test, auxiliary for the substring test. -/
def startsWith : List Nat → List Nat → Bool
  | [], _ => true
  | _ :: _, [] => false
  | a :: as, b :: bs => a == b && startsWith as bs

/-- Python's `needle in hay` substring test on strings. -/
def inStr (needle : List Nat) : List Nat → Bool
  | [] => needle.isEmpty
  | c :: t => startsWith needle (c :: t) || inStr needle t

/-! ### Pattern Matcher / Deduplicator (`prowlarr_client.py`)

`_create_search_pattern` (lines 55-61): strip the title, replace runs of
whitespace with a single dot, delete every character outside `[\w.]`,
lowercase. -/

/-- Python `str.strip()` (whitespace strip at both ends). -/

def pyStrip (s : List Nat) : List Nat :=
  ((s.dropWhile isSpaceCh).reverse.dropWhile isSpaceCh).reverse

/-- Embedding of `re.sub(r'\s+', '.', s)`: every maximal run of whitespace becomes one
dot. The boolean state records whether the previous character was part of
a whitespace run. -/
def wsToDotAux : Bool → List Nat → List Nat
  | _, [] => []
  | prevWs, c :: t =>
    if isSpaceCh c then
      if prevWs then wsToDotAux true t else 46 :: wsToDotAux true t
    else c :: wsToDotAux false t

def wsToDot (s : List Nat) : List Nat := wsToDotAux false s

/-- Embedding of `ProwlarrClient._create_search_pattern`: the comparison key of a title
(spec operation `toComparisonKey`). -/
def createSearchPattern (title : List Nat) : List Nat :=
  let p := wsToDot (pyStrip title)
  let p2 := p.filter (fun c => isWordCh c || c == 46)
  lowerStr p2

/-- The duplicate test actually run at search time: the inline check of
`_format_search_results` (line 198), `a in b or b in a` on normalized
keys (spec operation `isDuplicate`). -/
def isDuplicateKey (a b : List Nat) : Bool := inStr a b || inStr b a

/-! ### Title Normalizer (`ProwlarrClient._extract_title`, lines 26-53)

The metadata markers of the combined split pattern. Each alternation
group of the source regex is embedded as the set of lowercase literal
strings it can match (covering the optional parts `WEB[- ]?DL`,
`H\.?264`, `DDP?`); all grouped alternatives carry a word boundary on
both sides in the source pattern, and every alternative starts and ends
with a word character, so the boundary checks reduce to the neighbouring
characters being non-word. -/

/-- Lowercase literals of `\b(720|1080|2160)p\b`. -/

def resolutionLits : List (List Nat) := [pyStr "720p", pyStr "1080p", pyStr "2160p"]

/-- Lowercase literals of `\b(UHD|HDR|HDR10|DV|SDR)\b`. -/
def rangeLits : List (List Nat) :=
  [pyStr "uhd", pyStr "hdr", pyStr "hdr10", pyStr "dv", pyStr "sdr"]

/-- Lowercase literals of `\b(BluRay|WEB[- ]?DL|HDRip|DVDRip|HDTV|NF|AMZN)\b`. -/
def sourceLits : List (List Nat) :=
  [pyStr "bluray", pyStr "web-dl", pyStr "web dl", pyStr "webdl",
   pyStr "hdrip", pyStr "dvdrip", pyStr "hdtv", pyStr "nf", pyStr "amzn"]

/-- Lowercase literals of `\b(HEVC|H\.?264|H\.?265|x264|x265)\b`. -/
def codecLits : List (List Nat) :=
  [pyStr "hevc", pyStr "h.264", pyStr "h264", pyStr "h.265", pyStr "h265",
   pyStr "x264", pyStr "x265"]

/-- Lowercase literals of `\b(DTS|DDP?|AAC|TrueHD|FLAC)\b`. -/
def audioLits : List (List Nat) :=
  [pyStr "dts", pyStr "dd", pyStr "ddp", pyStr "aac", pyStr "truehd", pyStr "flac"]

/-- Lowercase literals of `\b(MA|ATMOS|5\.1|7\.1|2\.0|2\.1|Mono|Stereo)\b`. -/
def channelLits : List (List Nat) :=
  [pyStr "ma", pyStr "atmos", pyStr "5.1", pyStr "7.1", pyStr "2.0",
   pyStr "2.1", pyStr "mono", pyStr "stereo"]

/-- Lowercase literals of `\b(REMUX|HYBRID|REPACK|EXTENDED|PROPER|UNRATED|LIMITED)\b`. -/
def editionLits : List (List Nat) :=
  [pyStr "remux", pyStr "hybrid", pyStr "repack", pyStr "extended",
   pyStr "proper", pyStr "unrated", pyStr "limited"]

/-- Match a lowercase literal case-insensitively at the head of the
suffix, returning the remainder on success. -/
def litAt : List Nat → List Nat → Option (List Nat)
  | [], s => some s
  | _ :: _, [] => none
  | a :: as, b :: bs => if a == toLowerCh b then litAt as bs else none

/-- Word boundary `\b` before a match whose first character is a word
character: holds at the string start or after a non-word character. -/
def bdryBefore : Option Nat → Bool
  | none => true
  | some p => !isWordCh p

/-- Word boundary `\b` after a match whose last character is a word
character: holds at the string end or before a non-word character. -/
def bdryAfter : List Nat → Bool
  | [] => true
  | c :: _ => !isWordCh c

/-- Does one of the `\b`-delimited literal alternatives match at this
position (`prev` is the character before the position)? -/
def litGroupHere (lits : List (List Nat)) (prev : Option Nat) (suf : List Nat) : Bool :=
  bdryBefore prev &&
    lits.any (fun l => match litAt l suf with
      | some rest => bdryAfter rest
      | none => false)

/-- Year marker `\b\d{4}\b`: exactly four digits delimited by word boundaries. -/
def yearHere (prev : Option Nat) (suf : List Nat) : Bool :=
  bdryBefore prev && (suf.take 4).length == 4 && (suf.take 4).all isDigitCh &&
    bdryAfter (suf.drop 4)

/-- Release-group marker `-[A-Za-z0-9]+$`: a hyphen followed by a nonempty all-alphanumeric
tail reaching the end of the string (the release-group marker). -/
def dashGroupHere : List Nat → Bool
  | 45 :: t => !t.isEmpty && t.all isAlnumCh
  | _ => false

/-- Does any metadata marker of the combined pattern match at this
position? -/
def markerHere (prev : Option Nat) (suf : List Nat) : Bool :=
  yearHere prev suf ||
  litGroupHere resolutionLits prev suf ||
  litGroupHere rangeLits prev suf ||
  litGroupHere sourceLits prev suf ||
  litGroupHere codecLits prev suf ||
  litGroupHere audioLits prev suf ||
  litGroupHere channelLits prev suf ||
  litGroupHere editionLits prev suf ||
  dashGroupHere suf

/-- Embedding of `pattern.split(clean, maxsplit=1)[0]`: the prefix of the string
before the leftmost position at which some marker matches (the whole
string when no marker matches anywhere). -/
def splitAux : Option Nat → List Nat → List Nat
  | _, [] => []
  | prev, c :: t => if markerHere prev (c :: t) then [] else c :: splitAux (some c) t

def beforeFirstMarker (s : List Nat) : List Nat := splitAux none s

/-- Extension stripper `re.sub(r'\.[a-z0-9]{2,4}$', '', filename, flags=re.IGNORECASE)`:
drop a trailing dot-plus-2-to-4-alphanumerics file extension, if any. -/
def stripExtension (s : List Nat) : List Nat :=
  let r := s.reverse
  let k := (r.takeWhile isAlnumCh).length
  if (2 ≤ k && k ≤ 4) && r[k]? == some 46 then s.take (s.length - k - 1) else s

/-- Separator cleaner `re.sub(r'[._]+', ' ', filename)`: every maximal run of dots and
underscores becomes one space. -/
def cleanSepsAux : Bool → List Nat → List Nat
  | _, [] => []
  | prevSep, c :: t =>
    if c == 46 || c == 95 then
      if prevSep then cleanSepsAux true t else 32 :: cleanSepsAux true t
    else c :: cleanSepsAux false t

def cleanSeps (s : List Nat) : List Nat := cleanSepsAux false s

/-- Embedding of `ProwlarrClient._extract_title` (spec operation `normalize`). -/
def extractTitle (filename : List Nat) : List Nat :=
  pyStrip (beforeFirstMarker (cleanSeps (stripExtension filename)))

/-! ### Search Result Filter & Paginator
(`ProwlarrClient._format_search_results`, lines 148-250) -/

/-- A numeric field of a raw API item after `int(float(value))`: either
the resulting integer, or a parse failure (the `except` branch). -/

inductive PyVal where
  | num : Int → PyVal
  | nonnum : PyVal
deriving DecidableEq

/-- Coercion `try: v = int(float(v)) except: v = 0`. -/
def toInt0 : PyVal → Int
  | .num v => v
  | .nonnum => 0

/-- One raw entry of the aggregator response, restricted to the fields
the filter pipeline reads. -/
structure RawItem where
  title : List Nat
  size : PyVal
  seeders : PyVal
  leechers : PyVal
deriving DecidableEq

/-- A formatted result record, restricted to the fields the claims
reference (the display-only fields — formatted size string, category
label, extracted metadata, links — are projections of the same item and
are not consulted by any filtering or pagination decision). -/
structure Torrent where
  name : List Nat
  sizeBytes : Int
  seeders : Int
  leechers : Int
deriving DecidableEq

/-- Constant `MAX_SIZE_BYTES = 150 * 1024 * 1024 * 1024` (line 10). -/
def MAX_SIZE_BYTES : Int := 150 * 1024 * 1024 * 1024

/-- Constant `MIN_SEEDERS = 1` (line 11). -/
def MIN_SEEDERS : Int := 1

/-- The duplicate-comparison key used at search time (lines 187-189 and
192-195): extract the clean title, replace each space with a dot,
lowercase. -/
def dedupKey (name : List Nat) : List Nat :=
  lowerStr ((extractTitle name).map (fun c => if c == 32 then 46 else c))

/-- The existing-downloads loop (lines 191-201): the first existing
torrent whose key matches the candidate key under symmetric containment,
if any (the loop breaks at the first hit). -/
def findDuplicate (key : List Nat) : List (List Nat) → Option (List Nat)
  | [] => none
  | e :: es => if isDuplicateKey key (dedupKey e) then some e else findDuplicate key es

/-- The per-item body of the processing loop (lines 160-227): parse size
and drop at the 150 GiB ceiling, parse seeders/leechers and drop below
the seeder minimum, then drop duplicates of existing downloads (the
duplicate check runs only when the existing list is nonempty, mirroring
`if existing_torrents:`). -/
def processItem (existing : List (List Nat)) (item : RawItem) : Option Torrent :=
  let size := toInt0 item.size
  if size ≥ MAX_SIZE_BYTES then none
  else
    let seeders := toInt0 item.seeders
    let leechers := toInt0 item.leechers
    if seeders < MIN_SEEDERS then none
    else if !existing.isEmpty && (findDuplicate (dedupKey item.title) existing).isSome then
      none
    else some ⟨item.title, size, seeders, leechers⟩

/-- The filtered result list, before pagination. -/
def formatFiltered (data : List RawItem) (existing : List (List Nat)) : List Torrent :=
  data.filterMap (processItem existing)

/-- The dictionary returned by `_format_search_results`. -/
structure SearchPage where
  torrents : List Torrent
  total_pages : Nat
  current_page : Nat
  total_results : Nat
deriving DecidableEq

/-- Embedding of `_format_search_results` (lines 232-250): paginate the filtered list
locally — slice `[page*rpp : (page+1)*rpp]`, total pages
`(total + rpp - 1) // rpp`. -/
def formatSearchResults (data : List RawItem) (page rpp : Nat)
    (existing : List (List Nat)) : SearchPage :=
  let ts := formatFiltered data existing
  { torrents := (ts.drop (page * rpp)).take rpp
    total_pages := (ts.length + rpp - 1) / rpp
    current_page := page
    total_results := ts.length }

/-! ### Auto-Download Rule Synthesizer (`qbittorrent_client.py`) -/

/-- The title-escaping chain
`title.replace(' ', '\\s+').replace('(', '\\(').replace(')', '\\)')`:
none of the replacement texts contains a character replaced by a later
step, so the chain acts characterwise. -/

def escCh (c : Nat) : List Nat :=
  if c == 32 then pyStr "\\s+"
  else if c == 40 then pyStr "\\("
  else if c == 41 then pyStr "\\)"
  else [c]

def escapeTitle (title : List Nat) : List Nat := (title.map escCh).flatten

/-- Python `str.zfill(w)`: left-pad with zeros to width `w`, keeping a
leading sign character in front of the padding. -/
def pyZfill (w : Nat) (s : List Nat) : List Nat :=
  if s.length ≥ w then s
  else
    match s with
    | [] => List.replicate w 48
    | c :: t =>
      if c == 43 || c == 45 then c :: (List.replicate (w - s.length) 48 ++ t)
      else List.replicate (w - s.length) 48 ++ s

/-- Python truthiness of an optional string argument: `None` and the
empty string are falsy. -/
def pyTruthy : Option (List Nat) → Bool
  | none => false
  | some s => !s.isEmpty

/-- The `rule_definition` dictionary passed to the download client. -/
structure RuleDef where
  enabled : Bool
  mustContain : List Nat
  mustNotContain : List Nat
  useRegex : Bool
  episodeFilter : List Nat
  smartFilter : Bool
  previouslyMatchedEpisodes : List (List Nat)
  affectedFeeds : List (List Nat)
  ignoreDays : Nat
  lastMatch : List Nat
  addPaused : Bool
  assignedCategory : List Nat
  savePath : List Nat
deriving DecidableEq

/-- Embedding of `QBittorrentClient.create_tv_show_rule` (lines 557-604): the rule
definition together with the generated rule name, with the save path
already resolved (the `save_path` default consults the download client
and is outside the synthesized definition). -/
def createTvShowRule (title quality savePath : List Nat)
    (season episode : Option (List Nat)) : RuleDef × List Nat :=
  let esc := escapeTitle title
  let pair :=
    if pyTruthy season && pyTruthy episode then
      let sv := season.getD []
      let ev := episode.getD []
      (esc ++ pyStr ".*S" ++ pyZfill 2 sv ++ pyStr "E" ++ pyZfill 2 ev ++ pyStr ".*" ++ quality,
       sv ++ pyStr "x" ++ pyZfill 2 ev ++ pyStr ";")
    else if pyTruthy season then
      let sv := season.getD []
      (esc ++ pyStr ".*S" ++ pyZfill 2 sv ++ pyStr ".*" ++ quality,
       sv ++ pyStr "x01-99;")
    else
      (esc ++ pyStr ".*" ++ quality, pyStr "1x01-99;")
  let ruleDef : RuleDef :=
    { enabled := true
      mustContain := pair.1
      mustNotContain := []
      useRegex := true
      episodeFilter := pair.2
      smartFilter := true
      previouslyMatchedEpisodes := []
      affectedFeeds := []
      ignoreDays := 0
      lastMatch := []
      addPaused := false
      assignedCategory := pyStr "tv"
      savePath := savePath }
  let name0 := title ++ pyStr "_" ++ quality
  let name1 := if pyTruthy season then name0 ++ pyStr "_S" ++ season.getD [] else name0
  let name2 := if pyTruthy episode then name1 ++ pyStr "_E" ++ episode.getD [] else name1
  (ruleDef, name2)

/-- The movie metadata fields consulted by the movie-rule synthesizers
(`movie_data.get('release_date', '')` and `movie_data.get('year', '')`;
an absent key yields the empty-string default). -/
structure MovieData where
  release_date : Option (List Nat)
  year : Option (List Nat)
deriving DecidableEq

/-- Python `str.isdigit` on the ASCII range: nonempty and all digits. -/
def pyIsdigit (s : List Nat) : Bool := !s.isEmpty && s.all isDigitCh

/-- Embedding of `QBittorrentClient.create_movie_rule` (lines 477-515): rule
definition and rule name, save path already resolved. -/
def createMovieRule (title quality savePath : List Nat)
    (movieData : Option MovieData) : RuleDef × List Nat :=
  let esc := escapeTitle title
  let year : Option (List Nat) :=
    match movieData with
    | none => none
    | some m =>
      let y := (m.release_date.getD []).take 4
      if y.isEmpty then some (m.year.getD []) else some y
  let mustContain :=
    if pyTruthy year && pyIsdigit (year.getD []) then
      esc ++ pyStr ".*" ++ year.getD [] ++ pyStr ".*" ++ quality
    else esc ++ pyStr ".*" ++ quality
  ({ enabled := true
     mustContain := mustContain
     mustNotContain := []
     useRegex := true
     episodeFilter := []
     smartFilter := false
     previouslyMatchedEpisodes := []
     affectedFeeds := []
     ignoreDays := 365
     lastMatch := []
     addPaused := false
     assignedCategory := pyStr "movies"
     savePath := savePath },
   title ++ pyStr "_" ++ quality)

/-- Embedding of `QBittorrentClient.create_upcoming_movie_rule` (lines 517-555): the
source duplicates the body of `create_movie_rule` verbatim — including
`ignoreDays: 365` — and differs only in the `_Upcoming` name suffix and
log messages. -/
def createUpcomingMovieRule (title quality savePath : List Nat)
    (movieData : Option MovieData) : RuleDef × List Nat :=
  let esc := escapeTitle title
  let year : Option (List Nat) :=
    match movieData with
    | none => none
    | some m =>
      let y := (m.release_date.getD []).take 4
      if y.isEmpty then some (m.year.getD []) else some y
  let mustContain :=
    if pyTruthy year && pyIsdigit (year.getD []) then
      esc ++ pyStr ".*" ++ year.getD [] ++ pyStr ".*" ++ quality
    else esc ++ pyStr ".*" ++ quality
  ({ enabled := true
     mustContain := mustContain
     mustNotContain := []
     useRegex := true
     episodeFilter := []
     smartFilter := false
     previouslyMatchedEpisodes := []
     affectedFeeds := []
     ignoreDays := 365
     lastMatch := []
     addPaused := false
     assignedCategory := pyStr "movies"
     savePath := savePath },
   title ++ pyStr "_" ++ quality ++ pyStr "_Upcoming")

/-- Embedding of `QBittorrentClient.rule_exists_by_title` (lines 739-778): true when
some rule whose extracted name is truthy (nonempty) contains the title
as a case-insensitive substring. -/
def ruleExistsByTitle (title : List Nat) (rules : List (List Nat)) : Bool :=
  rules.any (fun r => !r.isEmpty && inStr (lowerStr title) (lowerStr r))

theorem startsWith_iff (n h : List Nat) : startsWith n h = true ↔ ∃ s, h = n ++ s := by
  induction n generalizing h with
  | nil => simp [startsWith]
  | cons a as ih =>
    cases h with
    | nil =>
      simp only [startsWith, List.cons_append]
      constructor
      · intro hc; exact absurd hc (by simp)
      · rintro ⟨s, hs⟩; exact absurd hs (by simp)
    | cons b bs =>
      simp only [startsWith, Bool.and_eq_true, beq_iff_eq, ih, List.cons_append, List.cons.injEq]
      constructor
      · rintro ⟨rfl, s, rfl⟩; exact ⟨s, rfl, rfl⟩
      · rintro ⟨s, rfl, rfl⟩; exact ⟨rfl, s, rfl⟩

theorem inStr_iff (n h : List Nat) : inStr n h = true ↔ ∃ p s, h = p ++ n ++ s := by
  induction h with
  | nil =>
    simp only [inStr, List.isEmpty_iff]
    constructor
    · rintro rfl; exact ⟨[], [], rfl⟩
    · rintro ⟨p, s, hps⟩
      rcases List.append_eq_nil.mp (List.append_eq_nil.mp hps.symm).1 with ⟨-, h2⟩
      exact h2
  | cons c t ih =>
    simp only [inStr, Bool.or_eq_true, startsWith_iff, ih]
    constructor
    · rintro (⟨s, hs⟩ | ⟨p, s, rfl⟩)
      · exact ⟨[], s, by simpa using hs⟩
      · exact ⟨c :: p, s, rfl⟩
    · rintro ⟨p, s, hps⟩
      cases p with
      | nil => exact Or.inl ⟨s, by simpa using hps⟩
      | cons x xs =>
        rw [List.cons_append, List.cons_append] at hps
        injection hps with h1 h2
        exact Or.inr ⟨xs, s, h2⟩

/-- Matching with an empty needle always succeeds, as Python's empty-string containment. -/
theorem inStr_nil_left (h : List Nat) : inStr [] h = true := by
  cases h <;> simp [inStr, startsWith]

/-- Claim C2: the duplicate test on comparison keys is symmetric
containment: `isDuplicate a b` is true iff `a` occurs inside `b` or `b`
occurs inside `a`, and consequently `isDuplicate a b = isDuplicate b a`
for all keys. -/
theorem c2_dedup_symmetric (a b : List Nat) :
    (isDuplicateKey a b = true ↔ (∃ p s, b = p ++ a ++ s) ∨ (∃ p s, a = p ++ b ++ s)) ∧
    isDuplicateKey a b = isDuplicateKey b a := by
  constructor
  · simp only [isDuplicateKey, Bool.or_eq_true, inStr_iff]
  · simp only [isDuplicateKey, Bool.or_comm]

/-- Claim C1: on the input "The.Matrix.1999.1080p.BluRay.x264-GROUP" the
title normalizer replaces dots and underscores with spaces, cuts at the
leftmost metadata-marker match — the 4-digit year 1999 — and returns the
whitespace-trimmed prefix "The Matrix". -/
theorem c1_title_extraction_example :
    cleanSeps (stripExtension (pyStr "The.Matrix.1999.1080p.BluRay.x264-GROUP")) =
      pyStr "The Matrix 1999 1080p BluRay x264-GROUP" ∧
    beforeFirstMarker (pyStr "The Matrix 1999 1080p BluRay x264-GROUP") =
      pyStr "The Matrix " ∧
    extractTitle (pyStr "The.Matrix.1999.1080p.BluRay.x264-GROUP") = pyStr "The Matrix" := by
  refine ⟨by decide, by decide, by decide⟩

/-- Claim C3 counterexample: the comparison key of "a_b" is "a_b" — the
code deletes only characters outside Python's `[\w.]`, and `\w` keeps the
underscore — so the key is not made of lowercase letters, digits and dots
alone, contradicting the claimed output alphabet. -/
theorem c3_counterexample :
    createSearchPattern (pyStr "a_b") = pyStr "a_b" ∧
    95 ∈ createSearchPattern (pyStr "a_b") ∧
    (isLowerCh 95 || isDigitCh 95 || 95 == 46) = false := by
  refine ⟨by decide, by decide, by decide⟩

/-- Claim C3 (amended): `toComparisonKey` lowercases, replaces whitespace
runs with a single dot, and strips every character that is not
alphanumeric, an underscore, or a dot — so every character of the key is
a lowercase letter, a digit, an underscore, or a dot; and
`toComparisonKey "The Matrix" = "the.matrix"`. -/
theorem c3_key_alphabet :
    (∀ (title : List Nat) (c : Nat), c ∈ createSearchPattern title →
      isLowerCh c = true ∨ isDigitCh c = true ∨ c = 95 ∨ c = 46) ∧
    createSearchPattern (pyStr "The Matrix") = pyStr "the.matrix" := by
  constructor
  · intro title c hc
    simp only [createSearchPattern, lowerStr, List.mem_map, List.mem_filter,
      Bool.or_eq_true, beq_iff_eq] at hc
    obtain ⟨c0, ⟨-, hcls⟩, rfl⟩ := hc
    simp only [isWordCh, isAlnumCh, isAlphaCh, isUpperCh, isLowerCh, isDigitCh,
      toLowerCh, Bool.or_eq_true, Bool.and_eq_true, decide_eq_true_eq,
      beq_iff_eq] at hcls ⊢
    split
    · omega
    · omega
  · decide

/-- Witness for the amended C3 at a concrete input: 95 (the underscore)
is a character of `toComparisonKey "_"`, and it lands in the allowed
alphabet. -/
theorem c3_key_alphabet_witness :
    isLowerCh 95 = true ∨ isDigitCh 95 = true ∨ 95 = 95 ∨ 95 = 46 :=
  c3_key_alphabet.1 (pyStr "_") 95 (by decide)

/-- Claim C4: the size ceiling is 150 GiB tested with `>=` (a result of
exactly 150 GiB is dropped, whatever its other fields), non-numeric size
and seeders coerce to 0, an item with exactly 1 seeder passes the seeder
filter, and an item with unparsable seeders is dropped by it. -/
theorem c4_filter_thresholds :
    MAX_SIZE_BYTES = 150 * 2 ^ 30 ∧
    toInt0 PyVal.nonnum = 0 ∧
    (∀ (existing : List (List Nat)) (t : List Nat) (sdr lch : PyVal),
      processItem existing ⟨t, PyVal.num (150 * 2 ^ 30), sdr, lch⟩ = none) ∧
    (∀ (t : List Nat) (lch : PyVal),
      processItem [] ⟨t, PyVal.num 0, PyVal.num 1, lch⟩ =
        some ⟨t, 0, 1, toInt0 lch⟩) ∧
    (∀ (t : List Nat) (lch : PyVal),
      processItem [] ⟨t, PyVal.num 0, PyVal.nonnum, lch⟩ = none) := by
  refine ⟨by decide, rfl, ?_, ?_, ?_⟩
  · intro existing t sdr lch
    simp [processItem, MAX_SIZE_BYTES, toInt0]
  · intro t lch
    simp [processItem, MAX_SIZE_BYTES, MIN_SEEDERS, toInt0]
  · intro t lch
    simp [processItem, MAX_SIZE_BYTES, MIN_SEEDERS, toInt0]

/-- Claim C9: a result whose extracted title normalizes to the empty
key is flagged as a duplicate of the first existing download (the empty
key is contained in every key), and the item is dropped whenever the
existing-download list is nonempty. -/
theorem c9_empty_key_duplicate :
    (∀ (name e : List Nat) (es : List (List Nat)),
      dedupKey name = [] → findDuplicate (dedupKey name) (e :: es) = some e) ∧
    (∀ (item : RawItem) (existing : List (List Nat)),
      existing ≠ [] → dedupKey item.title = [] → processItem existing item = none) := by
  constructor
  · intro name e es h
    rw [h]
    simp [findDuplicate, isDuplicateKey, inStr_nil_left]
  · intro item existing hne hkey
    cases existing with
    | nil => exact absurd rfl hne
    | cons e es =>
      have hdup : (findDuplicate (dedupKey item.title) (e :: es)).isSome = true := by
        rw [hkey]
        simp [findDuplicate, isDuplicateKey, inStr_nil_left]
      simp only [processItem]
      split_ifs with h1 h2 h3
      · rfl
      · rfl
      · rfl
      · exact absurd (by simp [hdup]) h3

/-- Witness for C9 at a concrete input: "2003" extracts to the empty
title (the year marker matches at position 0), its key is empty, and the
item is dropped against a nonempty existing-download list. -/
theorem c9_empty_key_duplicate_witness :
    [pyStr "Existing.Show"] ≠ ([] : List (List Nat)) ∧
    dedupKey (pyStr "2003") = [] ∧
    processItem [pyStr "Existing.Show"]
      ⟨pyStr "2003", PyVal.num 100, PyVal.num 5, PyVal.num 0⟩ = none :=
  ⟨by decide, by decide,
    c9_empty_key_duplicate.2 ⟨pyStr "2003", PyVal.num 100, PyVal.num 5, PyVal.num 0⟩
      [pyStr "Existing.Show"] (by decide) (by decide)⟩

/-! ### Pagination arithmetic -/

theorem ceilPred {n : Nat} (hn : 0 < n) {m : Nat} (hm : 0 < m) :
    (m + n - 1) / n = (m - 1) / n + 1 := by
  have h : m + n - 1 = (m - 1) + n := by omega
  rw [h, Nat.add_div_right _ hn]

theorem ceilStep {n : Nat} (hn : 0 < n) {m : Nat} (hm : 0 < m) :
    (m + n - 1) / n = (m - n + n - 1) / n + 1 := by
  rw [ceilPred hn hm]
  rcases le_or_lt m n with h | h
  · have h0 : m - n = 0 := by omega
    rw [h0, Nat.div_eq_of_lt (by omega), Nat.div_eq_of_lt (by omega)]
  · rw [ceilPred hn (by omega : 0 < m - n)]
    have h1 : m - 1 = (m - n - 1) + n := by omega
    rw [h1, Nat.add_div_right _ hn]

theorem ceilEq {n : Nat} (hn : 0 < n) (t : Nat) :
    (t + n - 1) / n = t / n + (if t % n = 0 then 0 else 1) := by
  have hd := Nat.div_add_mod t n
  by_cases hr : t % n = 0
  · have h1 : t + n - 1 = n * (t / n) + (n - 1) := by omega
    have h2 : (n - 1) / n = 0 := Nat.div_eq_of_lt (by omega)
    rw [if_pos hr, h1, Nat.mul_add_div hn, h2]
  · have hlt : t % n < n := Nat.mod_lt _ hn
    have h1 : t + n - 1 = n * (t / n) + (t % n + n - 1) := by omega
    rw [if_neg hr, h1, Nat.mul_add_div hn]
    have h2 : t % n + n - 1 = (t % n - 1) + n := by omega
    have h3 : (t % n - 1) / n = 0 := Nat.div_eq_of_lt (by omega)
    rw [h2, Nat.add_div_right _ hn, h3]

/-- The filtered list is covered exactly by its pages: joining the
slices of all pages `0 .. ceil(len/n) - 1` restores the list. -/
theorem pagesChunks {α : Type} {n : Nat} (hn : 0 < n) :
    ∀ (k : Nat) (l : List α), k = (l.length + n - 1) / n →
      ((List.range k).map (fun p => (l.drop (p * n)).take n)).flatten = l := by
  intro k
  induction k with
  | zero =>
    intro l hk
    have hlen : l.length = 0 := by
      by_contra h
      have h1 := ceilPred hn (by omega : 0 < l.length)
      rw [h1] at hk
      exact Nat.succ_ne_zero _ hk.symm
    rw [List.length_eq_zero.mp hlen]
    rfl
  | succ k ih =>
    intro l hk
    have hlen : 0 < l.length := by
      by_contra h
      have h0 : l.length = 0 := by omega
      have e : (0 + n - 1) / n = 0 := Nat.div_eq_of_lt (by omega)
      rw [h0, e] at hk
      exact Nat.succ_ne_zero _ hk
    have hk' : k = ((l.drop n).length + n - 1) / n := by
      have hs := ceilStep hn hlen
      rw [List.length_drop]
      exact Nat.succ_injective (hk.trans hs)
    rw [List.range_succ_eq_map, List.map_cons, List.flatten_cons, Nat.zero_mul,
      List.drop_zero]
    have hmap : (List.range k).map (fun p => (l.drop (Nat.succ p * n)).take n) =
        (List.range k).map (fun p => ((l.drop n).drop (p * n)).take n) := by
      apply List.map_congr_left
      intro p hp
      rw [List.drop_drop, Nat.succ_mul, Nat.add_comm (p * n) n]
    rw [List.map_map]
    have hcomp : ((fun p => (l.drop (p * n)).take n) ∘ Nat.succ) =
        fun p => (l.drop (Nat.succ p * n)).take n := rfl
    rw [hcomp, hmap, ih (l.drop n) hk', List.take_append_drop]

/-- The page count covers the whole list: `len ≤ ceil(len/n) * n`. -/
theorem ceilMulGe {n : Nat} (hn : 0 < n) (t : Nat) : t ≤ ((t + n - 1) / n) * n := by
  have hd := Nat.div_add_mod t n
  have hlt : t % n < n := Nat.mod_lt _ hn
  rw [ceilEq hn]
  by_cases hr : t % n = 0
  · rw [if_pos hr]
    have hexp : (t / n + 0) * n = n * (t / n) := by ring
    omega
  · rw [if_neg hr]
    have hexp : (t / n + 1) * n = n * (t / n) + n := by ring
    omega

/-- Claim C5: pagination is applied after filtering — the returned
totals are the length of the filtered list and its ceiling-divided page
count, the items are the slice `[p*n : (p+1)*n]` of the filtered list,
the pages `0 .. total_pages - 1` concatenate back to the filtered list
(and their item counts sum to `total_results`), and any page at or past
`total_pages` yields an empty item list with the same totals. -/
theorem c5_pagination (data : List RawItem) (existing : List (List Nat))
    (p n : Nat) (hn : 0 < n) :
    (formatSearchResults data p n existing).total_results =
      (formatFiltered data existing).length ∧
    (formatSearchResults data p n existing).total_pages =
      (formatFiltered data existing).length / n +
        (if (formatFiltered data existing).length % n = 0 then 0 else 1) ∧
    (formatSearchResults data p n existing).torrents =
      ((formatFiltered data existing).drop (p * n)).take n ∧
    ((List.range (formatSearchResults data p n existing).total_pages).map
        (fun i => (formatSearchResults data i n existing).torrents)).flatten =
      formatFiltered data existing ∧
    ((List.range (formatSearchResults data p n existing).total_pages).map
        (fun i => (formatSearchResults data i n existing).torrents.length)).sum =
      (formatSearchResults data p n existing).total_results ∧
    (p ≥ (formatSearchResults data p n existing).total_pages →
      (formatSearchResults data p n existing).torrents = [] ∧
      (formatSearchResults data p n existing).total_pages =
        (formatSearchResults data 0 n existing).total_pages ∧
      (formatSearchResults data p n existing).total_results =
        (formatSearchResults data 0 n existing).total_results) := by
  have hflat : ((List.range (formatSearchResults data p n existing).total_pages).map
      (fun i => (formatSearchResults data i n existing).torrents)).flatten =
      formatFiltered data existing :=
    pagesChunks hn _ (formatFiltered data existing) rfl
  refine ⟨rfl, ceilEq hn _, rfl, hflat, ?_, ?_⟩
  · have h5 := congrArg List.length hflat
    rw [List.length_flatten, List.map_map] at h5
    exact h5
  · intro hp
    refine ⟨?_, rfl, rfl⟩
    have h1 : (formatFiltered data existing).length ≤
        (formatSearchResults data p n existing).total_pages * n :=
      ceilMulGe hn _
    have h2 : (formatFiltered data existing).length ≤ p * n :=
      le_trans h1 (Nat.mul_le_mul_right n hp)
    show ((formatFiltered data existing).drop (p * n)).take n = []
    rw [List.drop_eq_nil_of_le h2, List.take_nil]

/-- Witness for C5 at a concrete input: two raw items, page size 1. -/
theorem c5_pagination_witness :
    0 < 1 ∧
    (formatSearchResults
        [⟨pyStr "Alpha.2001.mkv", PyVal.num 10, PyVal.num 2, PyVal.num 0⟩,
         ⟨pyStr "Beta.2002.mkv", PyVal.num 20, PyVal.num 3, PyVal.num 1⟩]
        0 1 []).total_results =
      (formatFiltered
        [⟨pyStr "Alpha.2001.mkv", PyVal.num 10, PyVal.num 2, PyVal.num 0⟩,
         ⟨pyStr "Beta.2002.mkv", PyVal.num 20, PyVal.num 3, PyVal.num 1⟩] []).length :=
  ⟨by decide,
    (c5_pagination
      [⟨pyStr "Alpha.2001.mkv", PyVal.num 10, PyVal.num 2, PyVal.num 0⟩,
       ⟨pyStr "Beta.2002.mkv", PyVal.num 20, PyVal.num 3, PyVal.num 1⟩]
      [] 0 1 (by decide)).1⟩

theorem pyTruthy_some {s : List Nat} (h : s ≠ []) : pyTruthy (some s) = true := by
  cases s with
  | nil => exact absurd rfl h
  | cons a t => rfl

/-- Claim C6: the three TV-rule tiers. With season and episode given the
match expression anchors the zero-padded `S..E..` token plus quality and
the episode filter is `season x zero-padded-episode ;` (season 3,
episode 5 gives "3x05;"); with season only, the match anchors the
zero-padded `S..` plus quality and the filter is `season x01-99;`
(season 3 gives "3x01-99;"); with neither, the match is the bare
`Title.*Quality` and the filter defaults to "1x01-99;"; every tier
assigns category "tv" and ignoreDays 0. -/
theorem c6_tv_rule_tiers (t q sp sv ev : List Nat) (hs : sv ≠ []) (he : ev ≠ []) :
    (createTvShowRule t q sp (some sv) (some ev)).1.mustContain =
      escapeTitle t ++ pyStr ".*S" ++ pyZfill 2 sv ++ pyStr "E" ++ pyZfill 2 ev ++
        pyStr ".*" ++ q ∧
    (createTvShowRule t q sp (some sv) (some ev)).1.episodeFilter =
      sv ++ pyStr "x" ++ pyZfill 2 ev ++ pyStr ";" ∧
    (createTvShowRule t q sp (some sv) none).1.mustContain =
      escapeTitle t ++ pyStr ".*S" ++ pyZfill 2 sv ++ pyStr ".*" ++ q ∧
    (createTvShowRule t q sp (some sv) none).1.episodeFilter = sv ++ pyStr "x01-99;" ∧
    (createTvShowRule t q sp none none).1.mustContain = escapeTitle t ++ pyStr ".*" ++ q ∧
    (createTvShowRule t q sp none none).1.episodeFilter = pyStr "1x01-99;" ∧
    (∀ season episode,
      (createTvShowRule t q sp season episode).1.assignedCategory = pyStr "tv" ∧
      (createTvShowRule t q sp season episode).1.ignoreDays = 0) ∧
    (createTvShowRule (pyStr "Show") (pyStr "1080p") (pyStr "/tv")
      (some (pyStr "3")) (some (pyStr "5"))).1.episodeFilter = pyStr "3x05;" ∧
    (createTvShowRule (pyStr "Show") (pyStr "1080p") (pyStr "/tv")
      (some (pyStr "3")) none).1.episodeFilter = pyStr "3x01-99;" := by
  have hs' := pyTruthy_some hs
  have he' := pyTruthy_some he
  refine ⟨?_, ?_, ?_, ?_, rfl, rfl, fun season episode => ⟨rfl, rfl⟩, by decide, by decide⟩ <;>
    simp [createTvShowRule, hs', he', pyTruthy, hs, he]

/-- Witness for C6 at season "3", episode "5". -/
theorem c6_tv_rule_tiers_witness :
    pyStr "3" ≠ [] ∧ pyStr "5" ≠ [] ∧
    (createTvShowRule (pyStr "Show") (pyStr "1080p") (pyStr "/tv")
      (some (pyStr "3")) (some (pyStr "5"))).1.episodeFilter = pyStr "3x05;" :=
  ⟨by decide, by decide,
    (c6_tv_rule_tiers (pyStr "Show") (pyStr "1080p") (pyStr "/tv") (pyStr "3") (pyStr "5")
      (by decide) (by decide)).2.2.2.2.2.2.2.1⟩

/-- Claim C10: with an episode supplied but season `None`, the rule falls
to the general tier — bare `Title.*Quality` match and the default filter
"1x01-99;" — while the rule name still receives the `_E episode`
suffix. -/
theorem c10_episode_without_season (t q sp ev : List Nat) (he : ev ≠ []) :
    (createTvShowRule t q sp none (some ev)).1.mustContain =
      escapeTitle t ++ pyStr ".*" ++ q ∧
    (createTvShowRule t q sp none (some ev)).1.episodeFilter = pyStr "1x01-99;" ∧
    (createTvShowRule t q sp none (some ev)).2 =
      t ++ pyStr "_" ++ q ++ pyStr "_E" ++ ev := by
  have he' := pyTruthy_some he
  refine ⟨?_, ?_, ?_⟩ <;> simp [createTvShowRule, he', pyTruthy, he]

/-- Witness for C10 at episode "5". -/
theorem c10_episode_without_season_witness :
    pyStr "5" ≠ [] ∧
    (createTvShowRule (pyStr "Show") (pyStr "720p") (pyStr "/tv") none
      (some (pyStr "5"))).2 =
      pyStr "Show" ++ pyStr "_" ++ pyStr "720p" ++ pyStr "_E" ++ pyStr "5" :=
  ⟨by decide,
    (c10_episode_without_season (pyStr "Show") (pyStr "720p") (pyStr "/tv") (pyStr "5")
      (by decide)).2.2⟩

/-- Claim C7 counterexample: with an existing rule whose name is the
empty string and the empty title, the name does contain the title as a
(case-insensitive) substring, yet `rule_exists_by_title` returns false —
the loop skips falsy (empty) rule names — so the claimed equivalence
fails at this input. -/
theorem c7_counterexample :
    ¬ ((ruleExistsByTitle [] [[]] = true) ↔
        ∃ r ∈ ([[]] : List (List Nat)),
          ∃ p s, lowerStr r = p ++ lowerStr [] ++ s) := by
  intro h
  have h2 : ruleExistsByTitle [] [[]] = true :=
    h.mpr ⟨[], List.mem_singleton.mpr rfl, [], [], rfl⟩
  exact absurd h2 (by decide)

/-- Claim C7 (amended): `rule_exists_by_title t` is true iff some
existing rule's nonempty name contains `t` as a case-insensitive
substring — irrespective of the quality or season encoded in the name —
so any rule named around "Dune" collides with a new "Dune" rule at any
quality. -/
theorem c7_rule_collision (t : List Nat) (rules : List (List Nat)) :
    (ruleExistsByTitle t rules = true ↔
      ∃ r ∈ rules, r ≠ [] ∧ ∃ p s, lowerStr r = p ++ lowerStr t ++ s) ∧
    ruleExistsByTitle (pyStr "Dune") [pyStr "Auto_Dune_1080p_S1"] = true ∧
    ruleExistsByTitle (pyStr "Dune") [pyStr "dune_720p"] = true := by
  refine ⟨?_, by decide, by decide⟩
  rw [ruleExistsByTitle, List.any_eq_true]
  constructor
  · rintro ⟨r, hr, hcond⟩
    rw [Bool.and_eq_true] at hcond
    obtain ⟨hne, hin⟩ := hcond
    refine ⟨r, hr, ?_, (inStr_iff _ _).mp hin⟩
    intro hnil
    rw [hnil] at hne
    exact absurd hne (by decide)
  · rintro ⟨r, hr, hne, hsub⟩
    refine ⟨r, hr, ?_⟩
    rw [Bool.and_eq_true]
    refine ⟨?_, (inStr_iff _ _).mpr hsub⟩
    cases r with
    | nil => exact absurd rfl hne
    | cons a tl => rfl

/-- Claim C8: for identical inputs, `create_movie_rule` and
`create_upcoming_movie_rule` synthesize the same match expression, their
definitions differ in no field beyond the ignore-window choice (in the
source they are in fact identical field for field), the upcoming rule
carries ignoreDays 365, and only the rule name gains the `_Upcoming`
suffix. -/
theorem c8_movie_rule_variants (t q sp : List Nat) (md : Option MovieData) :
    (createMovieRule t q sp md).1 = (createUpcomingMovieRule t q sp md).1 ∧
    (createMovieRule t q sp md).1.mustContain =
      (createUpcomingMovieRule t q sp md).1.mustContain ∧
    (createUpcomingMovieRule t q sp md).1.ignoreDays = 365 ∧
    (createMovieRule t q sp md).1.ignoreDays = 365 ∧
    (createUpcomingMovieRule t q sp md).2 =
      (createMovieRule t q sp md).2 ++ pyStr "_Upcoming" :=
  ⟨rfl, rfl, rfl, rfl, rfl⟩

end QbitRD
